import Mathlib

/-!
Verification of the filtering-and-aggregation pipeline of the Madrid
real-estate dashboard (src/idealista_app.py) against its specification.

The dashboard's core logic is embedded shallowly:
a pandas DataFrame of listings becomes a `List Listing`; numeric columns
(price, sqft, the derived per-unit prices) are modelled as rationals `ℚ`;
boolean-mask filtering becomes `List.filter`; `groupby(...).mean()` becomes
grouping by the distinct (sorted) key values and taking the arithmetic mean
of each group; `sort_values(ascending=False).head(10)` becomes a
descending insertion sort followed by `List.take 10`.
-/

namespace Idealista

/-- One row of the enriched dataset.  Columns as in the CSV schema
(`price, sqft, rooms, baths, typology, address, title`); `price` and `sqft`
are modelled as rationals, `rooms` and `baths` as naturals. -/
structure Listing where
  title : String
  price : ℚ
  rooms : ℕ
  baths : ℕ
  sqft : ℚ
  typology : String
  address : String
deriving DecidableEq, Repr

/-- Characters of a string up to (excluding) the first comma; the whole
string when it has no comma.  This is `address.split(',')[0]` of
`load_data` (line 78), acting on the character list. -/
def takeUntilComma : List Char → List Char
  | [] => []
  | c :: cs => if c = ',' then [] else c :: takeUntilComma cs

/-- The neighborhood column derived at load time:
`df['neighborhood'] = df['address'].str.split(',').str[0]` (line 78). -/
def extractNeighborhood (s : String) : String :=
  String.mk (takeUntilComma s.data)

/-- Derived column `price_per_sqft = price / sqft` (line 74). -/
def price_per_sqft (r : Listing) : ℚ := r.price / r.sqft

/-- Derived column `price_per_room = price / rooms.replace(0, 1)` (line 75). -/
def price_per_room (r : Listing) : ℚ :=
  r.price / (((if r.rooms = 0 then 1 else r.rooms) : ℕ) : ℚ)

/-- Derived column `neighborhood` of a listing (line 78). -/
def neighborhood (r : Listing) : String := extractNeighborhood r.address

/-- The sidebar filter state: the price slider, the area slider, and the
four multiselects (lines 92-145).  Multiselects return lists of selected
options; an empty list means nothing selected. -/
structure Criteria where
  price_lo : ℚ
  price_hi : ℚ
  area_lo : ℚ
  area_hi : ℚ
  rooms : List ℕ
  baths : List ℕ
  typologies : List String
  neighborhoods : List String
deriving DecidableEq, Repr

/-- The conjunction of the six boolean-mask conditions of lines 150-156:
price and sqft inside their inclusive slider ranges, and rooms, baths and
typology each `isin` the corresponding multiselect list. -/
def rowMask (c : Criteria) (r : Listing) : Bool :=
  decide (c.price_lo ≤ r.price) && decide (r.price ≤ c.price_hi) &&
  decide (c.area_lo ≤ r.sqft) && decide (r.sqft ≤ c.area_hi) &&
  decide (r.rooms ∈ c.rooms) && decide (r.baths ∈ c.baths) &&
  decide (r.typology ∈ c.typologies)

/-- Lines 148-161: apply the boolean mask, then — only when the
neighborhood multiselect is non-empty (Python truthiness of the list) —
additionally keep rows whose neighborhood `isin` the selection. -/
def filtered_df (c : Criteria) (ds : List Listing) : List Listing :=
  let base := ds.filter (fun r => rowMask c r)
  if c.neighborhoods = [] then base
  else base.filter (fun r => decide (neighborhood r ∈ c.neighborhoods))

/-- The two-stage filter of lines 148-161 collapses to a single filter whose
predicate adds the guarded neighborhood condition to the mask. -/
lemma filtered_df_eq_filter (c : Criteria) (ds : List Listing) :
    filtered_df c ds =
      ds.filter (fun r => rowMask c r &&
        (decide (c.neighborhoods = []) || decide (neighborhood r ∈ c.neighborhoods))) := by
  unfold filtered_df
  split
  · rename_i h
    simp [h]
  · rename_i h
    rw [List.filter_filter]
    simp [h]
    congr 1
    funext r
    exact Bool.and_comm _ _

/-- C1: Filter keeps a row iff its price is in the inclusive price range,
its sqft is in the inclusive area range, its rooms, baths and typology are
in the respective accepted sets, and either the neighborhood selection is
empty or its neighborhood is selected; an empty neighborhood selection
drops that predicate entirely, while an empty rooms, baths or typology
selection yields an empty result. -/
theorem filter_characterization (c : Criteria) (ds : List Listing) :
    (∀ r : Listing, r ∈ filtered_df c ds ↔ r ∈ ds ∧
      (c.price_lo ≤ r.price ∧ r.price ≤ c.price_hi) ∧
      (c.area_lo ≤ r.sqft ∧ r.sqft ≤ c.area_hi) ∧
      r.rooms ∈ c.rooms ∧ r.baths ∈ c.baths ∧ r.typology ∈ c.typologies ∧
      (c.neighborhoods = [] ∨ neighborhood r ∈ c.neighborhoods)) ∧
    filtered_df { c with neighborhoods := [] } ds = ds.filter (fun r => rowMask c r) ∧
    filtered_df { c with rooms := [] } ds = [] ∧
    filtered_df { c with baths := [] } ds = [] ∧
    filtered_df { c with typologies := [] } ds = [] := by
  refine ⟨?_, ?_, ?_, ?_, ?_⟩
  · intro r
    rw [filtered_df_eq_filter, List.mem_filter]
    simp only [rowMask, Bool.and_eq_true, Bool.or_eq_true, decide_eq_true_eq]
    tauto
  · rfl
  · rw [filtered_df_eq_filter]
    apply List.filter_eq_nil_iff.mpr
    intro r _
    simp [rowMask]
  · rw [filtered_df_eq_filter]
    apply List.filter_eq_nil_iff.mpr
    intro r _
    simp [rowMask]
  · rw [filtered_df_eq_filter]
    apply List.filter_eq_nil_iff.mpr
    intro r _
    simp [rowMask]

/-- C5: Filter is idempotent — filtering an already-filtered dataset with
the same criteria returns it unchanged. -/
theorem filter_idempotent (c : Criteria) (ds : List Listing) :
    filtered_df c (filtered_df c ds) = filtered_df c ds := by
  rw [filtered_df_eq_filter, filtered_df_eq_filter, List.filter_filter]
  simp only [Bool.and_self]

/-- C10: Filter's output is an order-preserving subsequence of its input
(a `List.Sublist`), and no row occurs more often in the output than in the
input. -/
theorem filter_sublist_of_input (c : Criteria) (ds : List Listing) :
    List.Sublist (filtered_df c ds) ds ∧
    ∀ r : Listing, (filtered_df c ds).count r ≤ ds.count r := by
  have hs : List.Sublist (filtered_df c ds) ds := by
    rw [filtered_df_eq_filter]
    exact List.filter_sublist ds
  exact ⟨hs, fun r => hs.count_le r⟩

/-- Result record of the four metric cards of lines 168-204.  Each mean is
an `Option ℚ`: `none` models the "N/A" branch the app takes when the
pandas mean is NaN or the filtered frame is empty. -/
structure SummaryMetrics where
  count : ℕ
  avg_price : Option ℚ
  avg_price_per_sqft : Option ℚ
  avg_area : Option ℚ
deriving DecidableEq, Repr

/-- The pandas `Series.mean` as consumed by lines 178-203: NaN on an empty
column (reported as "N/A", modelled `none`), the arithmetic mean
otherwise. -/
def pdMean (l : List ℚ) : Option ℚ :=
  if l.isEmpty then none else some (l.sum / (l.length : ℚ))

/-- Lines 171-204: the `Properties` count and the three averages shown in
the metric cards. -/
def summaryMetrics (ds : List Listing) : SummaryMetrics :=
  { count := ds.length
    avg_price := pdMean (ds.map Listing.price)
    avg_price_per_sqft := pdMean (ds.map price_per_sqft)
    avg_area := pdMean (ds.map Listing.sqft) }

/-- C4: on the empty filtered set the summary metrics have count 0 and all
three means reported not-applicable — never zero, never a surfaced NaN. -/
theorem summary_metrics_empty :
    summaryMetrics [] =
      { count := 0, avg_price := none, avg_price_per_sqft := none, avg_area := none } ∧
    (summaryMetrics []).avg_price ≠ some 0 ∧
    (summaryMetrics []).avg_price_per_sqft ≠ some 0 ∧
    (summaryMetrics []).avg_area ≠ some 0 := by
  decide

/-- Rows of the dataset whose neighborhood equals `k`: one group of
`filtered_df.groupby('neighborhood')`. -/
def groupRows (ds : List Listing) (k : String) : List Listing :=
  ds.filter (fun r => decide (neighborhood r = k))

/-- The distinct neighborhood values in ascending order: pandas `groupby`
(`sort=True` by default) emits one row per distinct key, keys sorted. -/
def sortedKeys (ds : List Listing) : List String :=
  List.insertionSort (· ≤ ·) ((ds.map neighborhood).dedup)

/-- Arithmetic mean of column `f` over the group of key `k`. -/
def groupMean (ds : List Listing) (f : Listing → ℚ) (k : String) : ℚ :=
  ((groupRows ds k).map f).sum / (((groupRows ds k).length : ℕ) : ℚ)

/-- `groupby('neighborhood')[value].mean().reset_index()` (lines 262, 364,
418): one `(key, mean)` pair per distinct neighborhood. -/
def groupAverage (ds : List Listing) (f : Listing → ℚ) : List (String × ℚ) :=
  (sortedKeys ds).map (fun k => (k, groupMean ds f k))

/-- Number of distinct neighborhoods,
`len(filtered_df['neighborhood'].unique())` (lines 261, 363, 416). -/
def numNeighborhoods (ds : List Listing) : ℕ :=
  ((ds.map neighborhood).dedup).length

/-- Descending comparison on the value component of a `(key, mean)` pair:
the sort order of `sort_values(value, ascending=False)`. -/
def descValue (a b : String × ℚ) : Prop := b.2 ≤ a.2

instance : DecidableRel descValue :=
  fun a b => inferInstanceAs (Decidable (b.2 ≤ a.2))

instance : IsTotal (String × ℚ) descValue :=
  ⟨fun a b => le_total b.2 a.2⟩

instance : IsTrans (String × ℚ) descValue :=
  ⟨fun _ _ _ h1 h2 => le_trans h2 h1⟩

/-- All that the source determines about
`sort_values(value, ascending=False)` (lines 263, 365-366): the output is
some reordering of the rows that is descending in the sort key.  The
default `kind='quicksort'` is documented as not stable, so the order of
rows with tied keys is implementation-defined; `out` ranges over every
output the call may produce. -/
def sortValuesDesc (l out : List (String × ℚ)) : Prop :=
  List.Perm out l ∧ List.Sorted descValue out

/-- One admissible output of `sortValuesDesc`: a descending insertion
sort, used below as the reference full-sort computation. -/
def sortDesc (l : List (String × ℚ)) : List (String × ℚ) :=
  List.insertionSort descValue l

/-- `sort_values(value, ascending=False).head(n)` (lines 263, 365-366),
instantiated with the reference implementation of the sort; the program's
own order within tied values is implementation-defined. -/
def topN (n : ℕ) (ds : List Listing) (f : Listing → ℚ) : List (String × ℚ) :=
  (sortDesc (groupAverage ds f)).take n

/-- Line 262-263: top 10 neighborhoods by average price. -/
def top_neighborhoods (ds : List Listing) : List (String × ℚ) :=
  topN 10 ds Listing.price

/-- Lines 364-366: top 10 neighborhoods by average price per square foot. -/
def price_sqft_neighborhood (ds : List Listing) : List (String × ℚ) :=
  topN 10 ds price_per_sqft

/-- Reference computation, stated from the spec's words: fully sort all
group means descending, then truncate to the first `n`. -/
def fullSortThenTruncate (n : ℕ) (ds : List Listing) (f : Listing → ℚ) :
    List (String × ℚ) :=
  (sortDesc (groupAverage ds f)).take n

/-- Descending order on rationals: the value order of the sort. -/
def descQ (a b : ℚ) : Prop := b ≤ a

instance : IsAntisymm ℚ descQ :=
  ⟨fun a b h1 h2 => le_antisymm h2 h1⟩

/-- Any two descending-sorted reorderings of the same rows carry the same
value column: sortedness determines the averaged values completely, and
tie order can only permute the keys within a run of equal values. -/
lemma map_snd_of_sortValuesDesc (l out : List (String × ℚ))
    (h : sortValuesDesc l out) :
    out.map Prod.snd = (sortDesc l).map Prod.snd := by
  have hperm : List.Perm (out.map Prod.snd) ((sortDesc l).map Prod.snd) :=
    (h.1.map Prod.snd).trans ((List.perm_insertionSort descValue l).map Prod.snd).symm
  exact @List.eq_of_perm_of_sorted ℚ descQ _ _ _ hperm
    (List.pairwise_map.mpr h.2)
    (List.pairwise_map.mpr (List.sorted_insertionSort descValue l))

/-- Two group-mean pairs tied at the same averaged value, in input order. -/
def tiedPairs : List (String × ℚ) := [("A", 1), ("B", 1)]

/-- The same two pairs with the tie order swapped. -/
def swappedPairs : List (String × ℚ) := [("B", 1), ("A", 1)]

/-- C3 (counterexample): the sort behavior the source pins down —
`sort_values(ascending=False)` with its default, documented-unstable
quicksort — admits, on a concrete input with a tie, an output whose tied
entries are not in stable input order, so the claimed tie-breaking is not
guaranteed by the program. -/
theorem sort_values_ties_not_stable :
    sortValuesDesc tiedPairs swappedPairs ∧
    sortDesc tiedPairs = tiedPairs ∧
    swappedPairs ≠ tiedPairs := by
  refine ⟨⟨?_, ?_⟩, by decide, by decide⟩
  · exact List.Perm.swap _ _ _
  · simp [List.sorted_cons, descValue, tiedPairs, swappedPairs]

/-- C3 (amended): every output the descending sort may produce, truncated
to its first 10 entries, is sorted descending by the averaged value, has
min 10 (number of distinct neighborhoods) entries — exactly 10 on a
dataset with 15 distinct neighborhoods — and carries the same
averaged-value column as the reference full-sort-then-truncate
computation; the order of tied entries is implementation-defined. -/
theorem topn_group_average_amended (ds : List Listing) (f : Listing → ℚ)
    (out : List (String × ℚ)) (hout : sortValuesDesc (groupAverage ds f) out) :
    List.Sorted descValue (out.take 10) ∧
    (out.take 10).length = min 10 (numNeighborhoods ds) ∧
    (out.take 10).map Prod.snd = (fullSortThenTruncate 10 ds f).map Prod.snd ∧
    (numNeighborhoods ds = 15 → (out.take 10).length = 10) := by
  have hlen : out.length = numNeighborhoods ds := by
    rw [hout.1.length_eq]
    simp [groupAverage, sortedKeys, numNeighborhoods]
  have htake : (out.take 10).length = min 10 (numNeighborhoods ds) := by
    rw [List.length_take, hlen]
  refine ⟨hout.2.sublist (List.take_sublist _ _), htake, ?_, fun h15 => ?_⟩
  · unfold fullSortThenTruncate
    rw [List.map_take, List.map_take, map_snd_of_sortValuesDesc _ _ hout]
  · rw [htake, h15]
    decide

/-- Summing a constant zero over any key list gives zero. -/
lemma sum_map_zero_q (keys : List String) : (keys.map (fun _ => (0 : ℚ))).sum = 0 := by
  induction keys with
  | nil => rfl
  | cons a t ih => simp [ih]

/-- Summing, over a duplicate-free key list containing `a`, a term that is
`q` at `a` and `0` elsewhere gives `q`. -/
lemma sum_map_ite_single (a : String) (q : ℚ) :
    ∀ keys : List String, keys.Nodup → a ∈ keys →
      (keys.map (fun k => if a = k then q else 0)).sum = q
  | [] => by
    intro _ h
    cases h
  | b :: bs => by
    intro hnd hmem
    rw [List.map_cons, List.sum_cons]
    by_cases hab : a = b
    · rw [if_pos hab]
      have hnotin : a ∉ bs := hab ▸ (List.nodup_cons.mp hnd).1
      have hz : (bs.map (fun k => if a = k then q else 0)).sum = 0 := by
        rw [List.map_congr_left (g := fun _ => (0 : ℚ))]
        · exact sum_map_zero_q bs
        · intro x hx
          rw [if_neg]
          intro hc
          exact hnotin (hc ▸ hx)
      rw [hz, add_zero]
    · rw [if_neg hab, zero_add]
      exact sum_map_ite_single a q bs (List.nodup_cons.mp hnd).2
        ((List.mem_cons.mp hmem).resolve_left hab)

/-- The groups of a duplicate-free key list covering all rows partition the
dataset: group-wise sums of any rational column add up to the whole sum. -/
lemma sum_filter_partition (g : Listing → ℚ) :
    ∀ (l : List Listing) (keys : List String), keys.Nodup →
      (∀ r ∈ l, neighborhood r ∈ keys) →
      (keys.map
        (fun k => ((l.filter (fun x => decide (neighborhood x = k))).map g).sum)).sum
        = (l.map g).sum
  | [] => by
    intro keys _ _
    simp only [List.filter_nil, List.map_nil, List.sum_nil]
    exact sum_map_zero_q keys
  | r :: l => by
    intro keys hnd hcomp
    have hstep : ∀ k ∈ keys,
        (((r :: l).filter (fun x => decide (neighborhood x = k))).map g).sum
          = (if neighborhood r = k then g r else 0)
            + ((l.filter (fun x => decide (neighborhood x = k))).map g).sum := by
      intro k _
      by_cases hk : neighborhood r = k
      · simp [List.filter_cons, hk]
      · simp [List.filter_cons, hk]
    rw [List.map_congr_left hstep, List.sum_map_add,
      sum_map_ite_single (neighborhood r) (g r) keys hnd (hcomp r (by simp)),
      sum_filter_partition g l keys hnd (fun x hx => hcomp x (List.mem_cons_of_mem r hx))]
    simp

/-- The sorted distinct-key list has no duplicates. -/
lemma sortedKeys_nodup (ds : List Listing) : (sortedKeys ds).Nodup :=
  (List.perm_insertionSort _ _).nodup_iff.mpr (List.nodup_dedup _)

/-- Every row's neighborhood occurs among the sorted distinct keys. -/
lemma mem_sortedKeys (ds : List Listing) (r : Listing) (hr : r ∈ ds) :
    neighborhood r ∈ sortedKeys ds := by
  unfold sortedKeys
  rw [List.mem_insertionSort, List.mem_dedup]
  exact List.mem_map_of_mem neighborhood hr

/-- Every key of the sorted distinct-key list has a non-empty group. -/
lemma groupRows_ne_nil (ds : List Listing) (k : String) (hk : k ∈ sortedKeys ds) :
    groupRows ds k ≠ [] := by
  unfold sortedKeys at hk
  rw [List.mem_insertionSort, List.mem_dedup, List.mem_map] at hk
  obtain ⟨r, hr, hrk⟩ := hk
  exact List.ne_nil_of_mem (List.mem_filter.mpr ⟨hr, by simp [hrk]⟩)

/-- A list of ones sums to the list's length. -/
lemma length_eq_sum_ones : ∀ l : List Listing,
    (l.map (fun _ => (1 : ℚ))).sum = (l.length : ℚ)
  | [] => rfl
  | a :: t => by
    simp [length_eq_sum_ones t, add_comm]

/-- The mean of the per-group means of `groupAverage`, weighted by the
group sizes (the spec's consistency-check quantity). -/
def weightedGroupMean (ds : List Listing) (f : Listing → ℚ) : ℚ :=
  ((groupAverage ds f).map
      (fun p => (((groupRows ds p.1).length : ℕ) : ℚ) * p.2)).sum /
  ((groupAverage ds f).map (fun p => (((groupRows ds p.1).length : ℕ) : ℚ))).sum

/-- The plain ungrouped mean of a column over the dataset. -/
def ungroupedMean (ds : List Listing) (f : Listing → ℚ) : ℚ :=
  (ds.map f).sum / ((ds.length : ℕ) : ℚ)

/-- C6: on any non-empty dataset, the group-size-weighted mean of the
per-neighborhood means of a value column equals the ungrouped mean of that
column over the same dataset. -/
theorem weighted_group_mean_consistency (ds : List Listing) (f : Listing → ℚ)
    (_hne : ds ≠ []) :
    weightedGroupMean ds f = ungroupedMean ds f := by
  have hnd := sortedKeys_nodup ds
  have hcomp : ∀ r ∈ ds, neighborhood r ∈ sortedKeys ds :=
    fun r hr => mem_sortedKeys ds r hr
  have hnum : ((groupAverage ds f).map
      (fun p => (((groupRows ds p.1).length : ℕ) : ℚ) * p.2)).sum = (ds.map f).sum := by
    unfold groupAverage
    rw [List.map_map]
    rw [List.map_congr_left
      (g := fun k => ((groupRows ds k).map f).sum) ?_]
    · exact sum_filter_partition f ds (sortedKeys ds) hnd hcomp
    · intro k hk
      have hlen : (((groupRows ds k).length : ℕ) : ℚ) ≠ 0 := by
        rw [Nat.cast_ne_zero]
        exact fun h => groupRows_ne_nil ds k hk (List.length_eq_zero.mp h)
      show (((groupRows ds k).length : ℕ) : ℚ) * groupMean ds f k
          = ((groupRows ds k).map f).sum
      unfold groupMean
      field_simp
  have hden : ((groupAverage ds f).map
      (fun p => (((groupRows ds p.1).length : ℕ) : ℚ))).sum = ((ds.length : ℕ) : ℚ) := by
    unfold groupAverage
    rw [List.map_map]
    rw [List.map_congr_left
      (g := fun k => ((groupRows ds k).map (fun _ => (1 : ℚ))).sum) ?_]
    · exact (sum_filter_partition (fun _ => (1 : ℚ)) ds (sortedKeys ds) hnd hcomp).trans
        (length_eq_sum_ones ds)
    · intro k _
      exact (length_eq_sum_ones (groupRows ds k)).symm
  unfold weightedGroupMean ungroupedMean
  rw [hnum, hden]

/-- Lines 418-419: `neighborhood_avg`, the per-neighborhood average of
`price_per_sqft`, column-renamed to `avg_price_per_sqft`. -/
def neighborhood_avg (ds : List Listing) : List (String × ℚ) :=
  groupAverage ds price_per_sqft

/-- Lines 422-424: merge each row with its neighborhood's average
`price_per_sqft` (a many-to-one inner merge on a key drawn from the same
frame, which keeps every left row in left order), then annotate with
`value_ratio = price_per_sqft / avg_price_per_sqft` and
`value_opportunity = 2 - value_ratio`. -/
def value_df (ds : List Listing) : List (Listing × ℚ × ℚ) :=
  ds.map (fun r =>
    (r, price_per_sqft r / groupMean ds price_per_sqft (neighborhood r),
      2 - price_per_sqft r / groupMean ds price_per_sqft (neighborhood r)))

/-- C2: when the filtered set has more than one distinct neighborhood (the
guard of line 416) and the schema holds (positive price and sqft), every
annotated row of value_df carries `value_ratio` equal to its
`price_per_sqft` divided by its neighborhood's mean `price_per_sqft` and
`value_opportunity = 2 - value_ratio`; a row priced exactly at its
neighborhood's mean gets ratio 1 and opportunity 1. -/
theorem value_opportunity_spec (ds : List Listing)
    (hpos : ∀ r ∈ ds, 0 < r.price ∧ 0 < r.sqft)
    (_hmulti : 1 < numNeighborhoods ds) :
    ∀ x ∈ value_df ds,
      x.2.1 = price_per_sqft x.1 / groupMean ds price_per_sqft (neighborhood x.1) ∧
      x.2.2 = 2 - x.2.1 ∧
      (price_per_sqft x.1 = groupMean ds price_per_sqft (neighborhood x.1) →
        x.2.1 = 1 ∧ x.2.2 = 1) := by
  intro x hx
  rw [value_df, List.mem_map] at hx
  obtain ⟨r, hr, rfl⟩ := hx
  refine ⟨rfl, rfl, ?_⟩
  intro heq
  have hrg : r ∈ groupRows ds (neighborhood r) :=
    List.mem_filter.mpr ⟨hr, by simp⟩
  have hpps : ∀ y ∈ groupRows ds (neighborhood r), 0 < price_per_sqft y := by
    intro y hy
    have hyd : y ∈ ds := (List.mem_filter.mp hy).1
    exact div_pos (hpos y hyd).1 (hpos y hyd).2
  have hsum : 0 < ((groupRows ds (neighborhood r)).map price_per_sqft).sum := by
    apply List.sum_pos
    · intro q hq
      rw [List.mem_map] at hq
      obtain ⟨y, hy, rfl⟩ := hq
      exact hpps y hy
    · exact fun h => List.ne_nil_of_mem hrg (List.map_eq_nil_iff.mp h)
  have hlen : (0 : ℚ) < (((groupRows ds (neighborhood r)).length : ℕ) : ℚ) := by
    rw [Nat.cast_pos]
    exact List.length_pos.mpr (List.ne_nil_of_mem hrg)
  have hmean : 0 < groupMean ds price_per_sqft (neighborhood r) :=
    div_pos hsum hlen
  constructor
  · show price_per_sqft r / groupMean ds price_per_sqft (neighborhood r) = 1
    rw [heq]
    exact div_self (ne_of_gt hmean)
  · show 2 - price_per_sqft r / groupMean ds price_per_sqft (neighborhood r) = 1
    rw [heq, div_self (ne_of_gt hmean)]
    norm_num

/-- The prefix kept by `takeUntilComma` contains no comma, and the input
decomposes as that prefix, either alone (no comma present) or followed by
the first comma and the remainder. -/
lemma takeUntilComma_spec : ∀ l : List Char,
    (∀ c ∈ takeUntilComma l, c ≠ ',') ∧
    (takeUntilComma l = l ∨ ∃ rest, l = takeUntilComma l ++ ',' :: rest)
  | [] => ⟨by simp [takeUntilComma], Or.inl rfl⟩
  | c :: cs => by
    by_cases hc : c = ','
    · refine ⟨?_, Or.inr ⟨cs, ?_⟩⟩
      · simp [takeUntilComma, hc]
      · simp [takeUntilComma, hc]
    · obtain ⟨ih1, ih2⟩ := takeUntilComma_spec cs
      refine ⟨?_, ?_⟩
      · intro d hd
        simp only [takeUntilComma, if_neg hc] at hd
        rcases List.mem_cons.mp hd with h | h
        · exact h ▸ hc
        · exact ih1 d h
      · rcases ih2 with h | ⟨rest, hrest⟩
        · left
          simp only [takeUntilComma, if_neg hc, h]
        · right
          refine ⟨rest, ?_⟩
          simp only [takeUntilComma, if_neg hc, List.cons_append]
          exact congrArg (c :: ·) hrest

/-- C7 (amended): the derived neighborhood is exactly the untrimmed
substring of the address before the first comma — it contains no comma and
the address is that prefix, either alone or followed by the first comma
and the rest of the address; no whitespace is stripped. -/
theorem neighborhood_before_first_comma (r : Listing) :
    (∀ c ∈ (neighborhood r).data, c ≠ ',') ∧
    ((neighborhood r).data = r.address.data ∨
      ∃ rest, r.address.data = (neighborhood r).data ++ ',' :: rest) :=
  takeUntilComma_spec r.address.data

/-- Strip leading and trailing space characters. -/
def trimSpaces (l : List Char) : List Char :=
  ((l.dropWhile (fun c => decide (c = ' '))).reverse.dropWhile
    (fun c => decide (c = ' '))).reverse

/-- Modelled from the spec: the claimed derived neighborhood — substring of
the address before the first comma, with surrounding whitespace trimmed.
Stated from the spec's words to compare with the code's
`extractNeighborhood`, which does not trim. -/
def specNeighborhood (s : String) : String :=
  String.mk (trimSpaces (takeUntilComma s.data))

/-- A listing whose address has spaces around the segment before the first
comma. -/
def cexListing : Listing :=
  { title := "t", price := 1, rooms := 1, baths := 1, sqft := 1,
    typology := "flat", address := " Sol , Madrid" }

/-- C7 (counterexample): on the address " Sol , Madrid" the code derives
the neighborhood " Sol " with its surrounding spaces, while the spec's
trimmed substring is "Sol"; the two differ. -/
theorem neighborhood_not_trimmed :
    neighborhood cexListing = " Sol " ∧
    specNeighborhood cexListing.address = "Sol" ∧
    neighborhood cexListing ≠ specNeighborhood cexListing.address := by
  decide

/-- One raw CSV row as read by `pd.read_csv` (line 71): a missing
`price`, `rooms`, `baths` or `sqft` cell is loaded as NaN, modelled as
`none`. -/
structure RawRow where
  title : String
  price : Option ℚ
  rooms : Option ℚ
  baths : Option ℚ
  sqft : Option ℚ
  typology : String
  address : String
deriving DecidableEq, Repr

/-- Division with pandas NaN propagation: NaN in either operand yields
NaN. -/
def nanDiv : Option ℚ → Option ℚ → Option ℚ
  | some a, some b => some (a / b)
  | _, _ => none

/-- `Series.replace(0, 1)` (line 75): substitutes 1 for 0, leaves NaN
alone. -/
def nanReplaceZeroOne : Option ℚ → Option ℚ
  | some a => some (if a = 0 then 1 else a)
  | none => none

/-- NaN divided into anything is NaN. -/
lemma nanDiv_none_left : ∀ x : Option ℚ, nanDiv none x = none
  | some _ => rfl
  | none => rfl

/-- Anything divided by NaN is NaN. -/
lemma nanDiv_none_right : ∀ x : Option ℚ, nanDiv x none = none
  | some _ => rfl
  | none => rfl

/-- A row after the enrichment of lines 73-78: the raw columns plus the
three derived columns, the numeric ones still NaN-able. -/
structure EnrichedRow where
  title : String
  price : Option ℚ
  rooms : Option ℚ
  baths : Option ℚ
  sqft : Option ℚ
  typology : String
  address : String
  price_per_sqft : Option ℚ
  price_per_room : Option ℚ
  neighborhood : String
deriving DecidableEq, Repr

/-- The per-row enrichment body of `load_data` (lines 73-78). -/
def enrichRow (r : RawRow) : EnrichedRow :=
  { title := r.title, price := r.price, rooms := r.rooms, baths := r.baths,
    sqft := r.sqft, typology := r.typology, address := r.address,
    price_per_sqft := nanDiv r.price r.sqft,
    price_per_room := nanDiv r.price (nanReplaceZeroOne r.rooms),
    neighborhood := extractNeighborhood r.address }

/-- Lines 69-80: `load_data` reads the CSV and enriches every row.  The
body contains no validation and raises nothing for rows with missing
cells; the `Except` error channel records the shape a fatal load error
would have, and is never used. -/
def load_data (rows : List RawRow) : Except String (List EnrichedRow) :=
  Except.ok (rows.map enrichRow)

/-- A raw row whose price cell is missing. -/
def rawMissingPrice : RawRow :=
  { title := "t", price := none, rooms := some 2, baths := some 1,
    sqft := some 50, typology := "flat", address := "Sol, Madrid" }

/-- C8 (counterexample): loading a source whose single row is missing its
price succeeds and produces an enriched dataset — no fatal load error is
surfaced, contrary to the claim. -/
theorem load_data_no_error_on_missing :
    load_data [rawMissingPrice] = Except.ok [enrichRow rawMissingPrice] ∧
    (load_data [rawMissingPrice]).isOk = true :=
  ⟨rfl, rfl⟩

/-- C8 (amended): the loader never fails on a row missing price, sqft, or
rooms — the row is loaded as-is, the affected derived fields are the
propagated NaN: a missing price makes both price_per_sqft and
price_per_room NaN, a missing sqft makes price_per_sqft NaN, and a
missing rooms makes price_per_room NaN. -/
theorem load_data_total (rows : List RawRow) (r : RawRow) (hr : r ∈ rows)
    (hmiss : r.price = none ∨ r.sqft = none ∨ r.rooms = none) :
    (∀ e : String, load_data rows ≠ Except.error e) ∧
    ∃ out, load_data rows = Except.ok out ∧ enrichRow r ∈ out ∧
      ((enrichRow r).price_per_sqft = none ∨ (enrichRow r).price_per_room = none) ∧
      (r.price = none →
        (enrichRow r).price_per_sqft = none ∧ (enrichRow r).price_per_room = none) ∧
      (r.sqft = none → (enrichRow r).price_per_sqft = none) ∧
      (r.rooms = none → (enrichRow r).price_per_room = none) := by
  have hpps_p : r.price = none → (enrichRow r).price_per_sqft = none := fun hp => by
    simp [enrichRow, hp, nanDiv_none_left]
  have hppr_p : r.price = none → (enrichRow r).price_per_room = none := fun hp => by
    simp [enrichRow, hp, nanDiv_none_left]
  have hpps_s : r.sqft = none → (enrichRow r).price_per_sqft = none := fun hs => by
    simp [enrichRow, hs, nanDiv_none_right]
  have hppr_r : r.rooms = none → (enrichRow r).price_per_room = none := fun hrm => by
    simp [enrichRow, hrm, nanReplaceZeroOne, nanDiv_none_right]
  refine ⟨fun e h => by simp [load_data] at h, rows.map enrichRow, rfl,
    List.mem_map_of_mem enrichRow hr, ?_, fun hp => ⟨hpps_p hp, hppr_p hp⟩,
    hpps_s, hppr_r⟩
  rcases hmiss with hp | hs | hrm
  · exact Or.inl (hpps_p hp)
  · exact Or.inl (hpps_s hs)
  · exact Or.inr (hppr_r hrm)

/-- Witness for C8 (amended) at the row with the missing price. -/
theorem load_data_total_witness :
    rawMissingPrice ∈ [rawMissingPrice] ∧ rawMissingPrice.price = none ∧
    ((∀ e : String, load_data [rawMissingPrice] ≠ Except.error e) ∧
      ∃ out, load_data [rawMissingPrice] = Except.ok out ∧
        enrichRow rawMissingPrice ∈ out ∧
        ((enrichRow rawMissingPrice).price_per_sqft = none ∨
          (enrichRow rawMissingPrice).price_per_room = none) ∧
        (rawMissingPrice.price = none →
          (enrichRow rawMissingPrice).price_per_sqft = none ∧
          (enrichRow rawMissingPrice).price_per_room = none) ∧
        (rawMissingPrice.sqft = none →
          (enrichRow rawMissingPrice).price_per_sqft = none) ∧
        (rawMissingPrice.rooms = none →
          (enrichRow rawMissingPrice).price_per_room = none)) :=
  ⟨by simp, rfl,
    load_data_total [rawMissingPrice] rawMissingPrice (by simp) (Or.inl rfl)⟩

/-- The script's two dataframe bindings around the filter step: `df` bound
at line 83 and `filtered_df` computed at lines 148-161; boolean-mask
indexing and `copy()` allocate new frames and never write into `df`. -/
structure AppState where
  df : List Listing
  filtered : List Listing
deriving DecidableEq, Repr

/-- Lines 148-161 as a state transition: rebind `filtered` from `df`. -/
def applyFilters (c : Criteria) (s : AppState) : AppState :=
  { df := s.df, filtered := filtered_df c s.df }

/-- Criteria whose ranges and selections accept the single witness row
and whose neighborhood selection is empty. -/
def permissiveCriteria : Criteria :=
  { price_lo := 0, price_hi := 10, area_lo := 0, area_hi := 10,
    rooms := [1], baths := [1], typologies := ["flat"], neighborhoods := [] }

/-- A one-row dataset entirely accepted by `permissiveCriteria`. -/
def dsW9 : List Listing :=
  [{ title := "a", price := 1, rooms := 1, baths := 1, sqft := 1,
     typology := "flat", address := "A,x" }]

/-- C9 (counterexample): with criteria accepting every row, the filter
output is value-equal to the source dataset, so the output is not a value
distinct from the source. -/
theorem filter_output_can_equal_source :
    filtered_df permissiveCriteria dsW9 = dsW9 := by
  decide

/-- C9 (amended): filtering never changes the loaded dataset — the `df`
component of the state is identical before and after the filter step, and
the filtered view is a value computed from it. -/
theorem filter_preserves_source (c : Criteria) (s : AppState) :
    (applyFilters c s).df = s.df ∧
    (applyFilters c s).filtered = filtered_df c s.df :=
  ⟨rfl, rfl⟩

/-- Two-row, two-neighborhood dataset with positive prices and areas; each
row is the only member of its neighborhood, so each is priced exactly at
its neighborhood's mean. -/
def dsW2 : List Listing :=
  [{ title := "a", price := 4, rooms := 1, baths := 1, sqft := 2,
     typology := "flat", address := "A,x" },
   { title := "b", price := 6, rooms := 2, baths := 1, sqft := 2,
     typology := "flat", address := "B,y" }]

/-- Witness for C2 on the concrete two-neighborhood dataset. -/
theorem value_opportunity_witness :
    (∀ r ∈ dsW2, 0 < r.price ∧ 0 < r.sqft) ∧ 1 < numNeighborhoods dsW2 ∧
    (∀ x ∈ value_df dsW2,
      x.2.1 = price_per_sqft x.1 / groupMean dsW2 price_per_sqft (neighborhood x.1) ∧
      x.2.2 = 2 - x.2.1 ∧
      (price_per_sqft x.1 = groupMean dsW2 price_per_sqft (neighborhood x.1) →
        x.2.1 = 1 ∧ x.2.2 = 1)) :=
  ⟨by decide, by decide, value_opportunity_spec dsW2 (by decide) (by decide)⟩

/-- Witness for C6 on the concrete two-neighborhood dataset. -/
theorem weighted_group_mean_witness :
    dsW2 ≠ [] ∧
    weightedGroupMean dsW2 Listing.price = ungroupedMean dsW2 Listing.price :=
  ⟨by decide, weighted_group_mean_consistency dsW2 Listing.price (by decide)⟩

/-- A one-row listing for a named neighborhood with a given price. -/
def mkListing (nm : String) (p : ℚ) : Listing :=
  { title := nm, price := p, rooms := 1, baths := 1, sqft := 1,
    typology := "flat", address := nm ++ ",x" }

/-- Fifteen listings in fifteen distinct neighborhoods. -/
def dsW3 : List Listing :=
  [mkListing "A" 1, mkListing "B" 2, mkListing "C" 3, mkListing "D" 4,
   mkListing "E" 5, mkListing "F" 6, mkListing "G" 7, mkListing "H" 8,
   mkListing "I" 9, mkListing "J" 10, mkListing "K" 11, mkListing "L" 12,
   mkListing "M" 13, mkListing "N" 14, mkListing "O" 15]

/-- Witness for C3 (amended) on the dataset with fifteen distinct
neighborhoods, taking the reference implementation as the admitted sort
output. -/
theorem topn_group_average_amended_witness :
    sortValuesDesc (groupAverage dsW3 Listing.price)
      (sortDesc (groupAverage dsW3 Listing.price)) ∧
    numNeighborhoods dsW3 = 15 ∧
    ((sortDesc (groupAverage dsW3 Listing.price)).take 10).length = 10 :=
  ⟨⟨List.perm_insertionSort descValue _, List.sorted_insertionSort descValue _⟩,
    by decide,
    (topn_group_average_amended dsW3 Listing.price _
      ⟨List.perm_insertionSort descValue _,
        List.sorted_insertionSort descValue _⟩).2.2.2 (by decide)⟩

end Idealista
